import Mathlib

/-!
Verification of the Study Time Tracker backend (`main.py`, `schemas.py`)
against its natural-language specification.

Modelling conventions:
* Python `str` is modelled as `List Char` (`Str`).
* `hashlib.sha256(...).hexdigest()` is a library call; it is modelled as an
  explicit function parameter `H : Str → Str`.  Facts the code relies on
  (injectivity up to collisions, hex output containing no separator) appear
  as hypotheses and are discharged on concrete instantiations.
* `secrets.token_hex` / `secrets.token_urlsafe` consume random bytes; the
  random bytes are explicit parameters and the deterministic encoding they
  apply is implemented faithfully.
* The MongoDB handle `db` (from `database.py`, outside the sources) is
  modelled as `Option DBState`; `if db else None` is the `Option` test.
* `datetime.now(timezone.utc)` values are explicit `Nat` parameters counting
  seconds; `timedelta(days=7)` is `7 * 86400` seconds; `isoformat` is a
  function parameter (a library rendering of an instant).
-/

set_option autoImplicit false

namespace StudyTracker

/-- Python strings modelled as lists of characters. -/
abbrev Str := List Char

/-- Shorthand turning a Lean string literal into the model type. -/
def str (s : String) : Str := s.data

/-! ## Password utility (`main.py` lines 26-37) -/

/-- Python `s.split(sep)` for a one-character separator `sep`:
splits at every occurrence, keeping empty pieces, so that
`"".split(":") = [""]` and `"a::b".split(":") = ["a", "", "b"]`. -/
def pySplit (sep : Char) : Str → List Str
  | [] => [[]]
  | c :: cs =>
    if c = sep then [] :: pySplit sep cs
    else
      match pySplit sep cs with
      | [] => [[c]]
      | p :: ps => (c :: p) :: ps

/-- One hexadecimal digit, as produced by `secrets.token_hex`. -/
def hexDigit : Nat → Char
  | 0 => '0' | 1 => '1' | 2 => '2' | 3 => '3' | 4 => '4'
  | 5 => '5' | 6 => '6' | 7 => '7' | 8 => '8' | 9 => '9'
  | 10 => 'a' | 11 => 'b' | 12 => 'c' | 13 => 'd' | 14 => 'e'
  | _ => 'f'

/-- Model of `secrets.token_hex` applied to the drawn random bytes:
each byte becomes two lowercase hex digits. -/
def token_hex (bytes : List Nat) : Str :=
  bytes.flatMap (fun b => [hexDigit (b / 16), hexDigit (b % 16)])

/-- Model of `hash_password` (`main.py` 26-29): draw a random salt via
`secrets.token_hex(16)` (the drawn bytes are the `saltBytes` parameter),
hash salt ++ password with sha256 (`H`), return `"salt:hash"`. -/
def hash_password (H : Str → Str) (saltBytes : List Nat) (password : Str) : Str :=
  let salt := token_hex saltBytes
  salt ++ ':' :: H (salt ++ password)

/-- Model of `verify_password` (`main.py` 32-37): `stored.split(":")` must
unpack into exactly two pieces `salt, hashed` (otherwise the `except` branch
returns `False`); on success compare the recomputed digest with `hashed`. -/
def verify_password (H : Str → Str) (password stored : Str) : Bool :=
  match pySplit ':' stored with
  | [salt, hashed] => H (salt ++ password) == hashed
  | _ => false

/-- Modelled from the spec (section 4.1 `verify`): split the stored form at
the FIRST separator into salt and hash; `none` when no separator occurs. -/
def splitOnce (sep : Char) : Str → Option (Str × Str)
  | [] => none
  | c :: cs =>
    if c = sep then some ([], cs)
    else
      match splitOnce sep cs with
      | none => none
      | some (a, b) => some (c :: a, b)

/-- Modelled from the spec (section 4.1): reference verifier that splits the
stored form on the first separator into salt and hash, recomputes the hash of
salt ++ password, and accepts exactly on match; fails closed when the stored
form has no separator. -/
def ref_verify_password (H : Str → Str) (password stored : Str) : Bool :=
  match splitOnce ':' stored with
  | some (salt, hashed) => H (salt ++ password) == hashed
  | none => false

/-! ### Basic lemmas about the split functions -/

theorem pySplit_ne_nil (sep : Char) (s : Str) : pySplit sep s ≠ [] := by
  induction s with
  | nil => simp [pySplit]
  | cons c cs ih =>
    simp only [pySplit]
    split
    · simp
    · cases h : pySplit sep cs with
      | nil => simp
      | cons p ps => simp

theorem pySplit_no_sep (sep : Char) (s : Str) (h : sep ∉ s) :
    pySplit sep s = [s] := by
  induction s with
  | nil => rfl
  | cons c cs ih =>
    simp only [List.mem_cons, not_or] at h
    simp only [pySplit, ih h.2, if_neg (Ne.symm h.1)]

theorem pySplit_append (sep : Char) (a b : Str) (h : sep ∉ a) :
    pySplit sep (a ++ sep :: b) = a :: pySplit sep b := by
  induction a with
  | nil => simp [pySplit]
  | cons c cs ih =>
    simp only [List.mem_cons, not_or] at h
    simp only [List.cons_append, pySplit, if_neg (Ne.symm h.1), List.append_eq]
    rw [ih h.2]

theorem splitOnce_append (sep : Char) (a b : Str) (h : sep ∉ a) :
    splitOnce sep (a ++ sep :: b) = some (a, b) := by
  induction a with
  | nil => simp [splitOnce]
  | cons c cs ih =>
    simp only [List.mem_cons, not_or] at h
    simp only [List.cons_append, splitOnce, if_neg (Ne.symm h.1), List.append_eq]
    rw [ih h.2]

/-- Any string containing the separator decomposes at its first occurrence. -/
theorem exists_first_sep (sep : Char) (s : Str) (h : sep ∈ s) :
    ∃ a b, s = a ++ sep :: b ∧ sep ∉ a := by
  induction s with
  | nil => cases h
  | cons c cs ih =>
    by_cases hc : c = sep
    · exact ⟨[], cs, by simp [hc], by simp⟩
    · rcases ih (by
        rcases List.mem_cons.mp h with h1 | h2
        · exact absurd h1.symm hc
        · exact h2) with ⟨a, b, hab, hna⟩
      exact ⟨c :: a, b, by simp [hab], by
        simp only [List.mem_cons, not_or]
        exact ⟨fun hs => hc hs.symm, hna⟩⟩

theorem hexDigit_ne_sep (n : Nat) : hexDigit n ≠ ':' := by
  unfold hexDigit
  split <;> decide

theorem sep_not_mem_token_hex (bytes : List Nat) : ':' ∉ token_hex bytes := by
  intro hmem
  unfold token_hex at hmem
  rw [List.mem_flatMap] at hmem
  rcases hmem with ⟨b, _, hb⟩
  simp only [List.mem_cons, List.not_mem_nil, or_false] at hb
  rcases hb with h | h
  · exact hexDigit_ne_sep _ h.symm
  · exact hexDigit_ne_sep _ h.symm

theorem beq_false_of_sep (x y : Str) (hx : ':' ∉ x) (hy : ':' ∈ y) :
    (x == y) = false := by
  apply beq_eq_false_iff_ne.mpr
  intro h
  exact hx (h ▸ hy)

/-! ### Claims about the password utility -/

/-- C1: for all passwords `p`, `p2`, verifying `p` against the stored form
produced by hashing `p2` succeeds exactly when `p = p2`.  The sha256 digest
function is a parameter assumed collision-free (injective) with hex output
(no separator character), as the code relies on for `hexdigest`. -/
theorem verify_hash_iff (H : Str → Str) (hInj : Function.Injective H)
    (hHex : ∀ s, ':' ∉ H s) (saltBytes : List Nat) (p p2 : Str) :
    verify_password H p (hash_password H saltBytes p2) = true ↔ p = p2 := by
  unfold hash_password verify_password
  rw [pySplit_append ':' _ _ (sep_not_mem_token_hex saltBytes),
    pySplit_no_sep ':' _ (hHex _)]
  simp only [beq_iff_eq]
  constructor
  · intro h
    exact List.append_cancel_left (hInj h)
  · intro h
    rw [h]

/-- Concrete collision-free hex-like digest used to instantiate the abstract
sha256 parameter in witnesses: each character is escaped into a two-character
block free of the separator. -/
def encPair (c : Char) : Str :=
  if c = ':' then ['b', 'b'] else ['a', c]

/-- Witness digest function: concatenate the escaped blocks. -/
def Hc (s : Str) : Str := s.flatMap encPair

/-- Decoder for `Hc`, establishing injectivity. -/
def decPairs : Str → Str
  | c1 :: c2 :: rest => (if c1 = 'b' then ':' else c2) :: decPairs rest
  | _ => []

theorem decPairs_Hc (s : Str) : decPairs (Hc s) = s := by
  induction s with
  | nil => rfl
  | cons c cs ih =>
    simp only [Hc, List.flatMap_cons] at ih ⊢
    by_cases hc : c = ':'
    · simp [encPair, if_pos hc, decPairs, ih, hc]
    · simp [encPair, if_neg hc, decPairs, ih]

theorem Hc_injective : Function.Injective Hc :=
  Function.LeftInverse.injective decPairs_Hc

theorem Hc_no_sep (s : Str) : ':' ∉ Hc s := by
  induction s with
  | nil => simp [Hc]
  | cons c cs ih =>
    simp only [Hc, List.flatMap_cons, List.mem_append, not_or] at ih ⊢
    refine ⟨?_, ih⟩
    unfold encPair
    by_cases hc : c = ':'
    · rw [if_pos hc]
      decide
    · rw [if_neg hc]
      simp only [List.mem_cons, List.not_mem_nil, or_false, not_or]
      exact ⟨by decide, fun h => hc h.symm⟩

/-- Witness for `verify_hash_iff` at concrete inputs: verifying the hashed
password succeeds and verifying a different password fails. -/
theorem verify_hash_iff_witness :
    verify_password Hc (str "pw1") (hash_password Hc [7, 200] (str "pw1")) = true ∧
    verify_password Hc (str "wrong") (hash_password Hc [7, 200] (str "pw1")) = false := by
  constructor
  · exact (verify_hash_iff Hc Hc_injective Hc_no_sep [7, 200]
      (str "pw1") (str "pw1")).mpr rfl
  · have h := verify_hash_iff Hc Hc_injective Hc_no_sep [7, 200]
      (str "wrong") (str "pw1")
    cases hb : verify_password Hc (str "wrong") (hash_password Hc [7, 200] (str "pw1")) with
    | false => rfl
    | true => exact absurd (h.mp hb) (by decide)

/-- C5: `verify_password` is total (it always returns a boolean, the
`try`/`except` of the source mapping every failure to `False`) and fails
closed: on any malformed stored form without the separator it returns
`false`. -/
theorem verify_malformed_false (H : Str → Str) (password stored : Str)
    (h : ':' ∉ stored) : verify_password H password stored = false := by
  unfold verify_password
  rw [pySplit_no_sep ':' stored h]

/-- Witness for `verify_malformed_false` on a stored form with no separator. -/
theorem verify_malformed_false_witness :
    verify_password Hc (str "pw") (str "deadbeef") = false :=
  verify_malformed_false Hc (str "pw") (str "deadbeef") (by decide)

/-- C6: on any stored form containing at least one separator,
`verify_password` agrees with the reference verifier of the spec, which
splits at the first separator; the digest parameter is assumed to produce
separator-free (hex) output. -/
theorem verify_eq_ref (H : Str → Str) (hHex : ∀ s, ':' ∉ H s)
    (password stored : Str) (h : ':' ∈ stored) :
    verify_password H password stored = ref_verify_password H password stored := by
  rcases exists_first_sep ':' stored h with ⟨a, b, rfl, hna⟩
  unfold verify_password ref_verify_password
  rw [pySplit_append ':' a b hna, splitOnce_append ':' a b hna]
  by_cases hb : ':' ∈ b
  · rcases exists_first_sep ':' b hb with ⟨b1, b2, rfl, hnb⟩
    rw [pySplit_append ':' b1 b2 hnb]
    cases hps : pySplit ':' b2 with
    | nil => exact absurd hps (pySplit_ne_nil ':' b2)
    | cons p ps =>
      exact (beq_false_of_sep _ _ (hHex _) (by simp)).symm
  · rw [pySplit_no_sep ':' b hb]

/-- Witness for `verify_eq_ref` on a stored form with two separators. -/
theorem verify_eq_ref_witness :
    verify_password Hc (str "pw") (str "ab:cd:ef") =
      ref_verify_password Hc (str "pw") (str "ab:cd:ef") :=
  verify_eq_ref Hc Hc_no_sep (str "pw") (str "ab:cd:ef") (by decide)

/-! ## Session tokens (`secrets.token_urlsafe`, `main.py` line 131) -/

/-- The URL-safe base64 alphabet. -/
def b64urlAlphabet : Str :=
  str "ABCDEFGHIJKLMNOPQRSTUVWXYZabcdefghijklmnopqrstuvwxyz0123456789-_"

/-- Character at a six-bit index of the URL-safe alphabet. -/
def b64Char (n : Nat) : Char := b64urlAlphabet.getD n 'A'

/-- URL-safe base64 encoding with the padding stripped, which is what
`secrets.token_urlsafe` applies to the drawn random bytes. -/
def base64urlNoPad : List Nat → Str
  | [] => []
  | [b1] => [b64Char (b1 / 4), b64Char (b1 % 4 * 16)]
  | [b1, b2] =>
    [b64Char (b1 / 4), b64Char (b1 % 4 * 16 + b2 / 16), b64Char (b2 % 16 * 4)]
  | b1 :: b2 :: b3 :: rest =>
    b64Char (b1 / 4) :: b64Char (b1 % 4 * 16 + b2 / 16) ::
      b64Char (b2 % 16 * 4 + b3 / 64) :: b64Char (b3 % 64) :: base64urlNoPad rest

/-- Model of `secrets.token_urlsafe` applied to the drawn random bytes. -/
def token_urlsafe (bytes : List Nat) : Str := base64urlNoPad bytes

theorem base64urlNoPad_length : ∀ bytes : List Nat,
    (base64urlNoPad bytes).length = (4 * bytes.length + 2) / 3
  | [] => by
    simp only [base64urlNoPad, List.length_nil]
  | [_] => by
    simp only [base64urlNoPad, List.length_cons, List.length_nil]
  | [_, _] => by
    simp only [base64urlNoPad, List.length_cons, List.length_nil]
  | b1 :: b2 :: b3 :: rest => by
    simp only [base64urlNoPad, List.length_cons, base64urlNoPad_length rest]
    omega

theorem b64Char_mem_alphabet (n : Nat) (h : n < 64) : b64Char n ∈ b64urlAlphabet := by
  revert h
  revert n
  decide

theorem base64urlNoPad_mem : ∀ bytes : List Nat, (∀ b ∈ bytes, b < 256) →
    ∀ c ∈ base64urlNoPad bytes, c ∈ b64urlAlphabet
  | [] => by
    intro _ c hc
    cases hc
  | [b1] => by
    intro h c hc
    have hb1 : b1 < 256 := h b1 (by simp)
    simp only [base64urlNoPad, List.mem_cons, List.not_mem_nil, or_false] at hc
    rcases hc with rfl | rfl
    · exact b64Char_mem_alphabet _ (by omega)
    · exact b64Char_mem_alphabet _ (by omega)
  | [b1, b2] => by
    intro h c hc
    have hb1 : b1 < 256 := h b1 (by simp)
    have hb2 : b2 < 256 := h b2 (by simp)
    simp only [base64urlNoPad, List.mem_cons, List.not_mem_nil, or_false] at hc
    rcases hc with rfl | rfl | rfl
    · exact b64Char_mem_alphabet _ (by omega)
    · exact b64Char_mem_alphabet _ (by omega)
    · exact b64Char_mem_alphabet _ (by omega)
  | b1 :: b2 :: b3 :: rest => by
    intro h c hc
    have hb1 : b1 < 256 := h b1 (by simp)
    have hb2 : b2 < 256 := h b2 (by simp)
    have hb3 : b3 < 256 := h b3 (by simp)
    simp only [base64urlNoPad, List.mem_cons] at hc
    rcases hc with rfl | rfl | rfl | rfl | hc5
    · exact b64Char_mem_alphabet _ (by omega)
    · exact b64Char_mem_alphabet _ (by omega)
    · exact b64Char_mem_alphabet _ (by omega)
    · exact b64Char_mem_alphabet _ (by omega)
    · exact base64urlNoPad_mem rest (fun b hb => h b (by simp [hb])) c hc5

/-! ## Data model for the auth endpoints (`main.py` 101-143, `schemas.py`) -/

/-- A `fastapi.HTTPException`: status code and detail message. -/
structure HTTPError where
  status_code : Nat
  detail : String
  deriving DecidableEq

/-- Request body of `POST /api/auth/register`. -/
structure RegisterPayload where
  name : Str
  email : Str
  password : Str
  deriving DecidableEq

/-- Request body of `POST /api/auth/login`. -/
structure LoginPayload where
  email : Str
  password : Str
  deriving DecidableEq

/-- A document of the `studentuser` collection as the code inserts it:
the fields of `schemas.StudentUser` plus the two timestamps. -/
structure UserDoc where
  name : Str
  email : Str
  password_hash : Str
  avatar_url : Option Str
  school : Option Str
  major : Option Str
  created_at : Nat
  updated_at : Nat
  deriving DecidableEq

/-- A stored user document together with its generated ObjectId. -/
structure StoredUser where
  oid : Nat
  doc : UserDoc
  deriving DecidableEq

/-- A document of the `session` collection as `login` inserts it. -/
structure SessionDoc where
  user_id : String
  token : Str
  user_agent : Option Str
  ip : Option Str
  expires_at_iso : String
  created_at : Nat
  updated_at : Nat
  deriving DecidableEq

/-- State of the document store as far as the auth endpoints touch it. -/
structure DBState where
  studentuser : List StoredUser
  session : List SessionDoc
  deriving DecidableEq

/-- Response body of a successful `register`. -/
structure RegisterResponse where
  ok : Bool
  user_id : String
  deriving DecidableEq

/-- Response body of a successful `login`. -/
structure LoginResponse where
  ok : Bool
  token : Str
  expires_at : String
  name : Str
  deriving DecidableEq

/-- Model of `db["studentuser"].find_one({"email": email})`, guarded by
`if db else None`: first stored document with the given email. -/
def findUser (db : Option DBState) (email : Str) : Option StoredUser :=
  match db with
  | none => none
  | some s => s.studentuser.find? (fun u => u.doc.email == email)

/-- Model of `register` (`main.py` 101-120).  The salt randomness, the two
`datetime.now` calls and the ObjectId generated by the store are explicit
parameters; the updated store is returned alongside the response. -/
def register (H : Str → Str) (saltBytes : List Nat) (now1 now2 : Nat)
    (newId : Nat) (db : Option DBState) (payload : RegisterPayload) :
    Except HTTPError (RegisterResponse × Option DBState) :=
  match findUser db payload.email with
  | some _ => .error ⟨400, "Email already registered"⟩
  | none =>
    let password_hash := hash_password H saltBytes payload.password
    let user_doc : UserDoc :=
      ⟨payload.name, payload.email, password_hash, none, none, none, now1, now2⟩
    match db with
    | some s =>
      .ok (⟨true, toString newId⟩,
        some ⟨s.studentuser ++ [⟨newId, user_doc⟩], s.session⟩)
    | none => .ok (⟨true, "None"⟩, none)

/-- Model of `login` (`main.py` 123-143).  `randBytes` are the bytes drawn
by `secrets.token_urlsafe(32)`, `isoformat` the library rendering of an
instant, `now`, `nowC`, `nowU` the three `datetime.now` calls, `ua` and `ip`
the request user agent and client host. -/
def login (H : Str → Str) (randBytes : List Nat) (isoformat : Nat → String)
    (now nowC nowU : Nat) (ua ip : Option Str) (db : Option DBState)
    (payload : LoginPayload) :
    Except HTTPError (LoginResponse × Option DBState) :=
  match db with
  | none => .error ⟨401, "Invalid credentials"⟩
  | some s =>
    match s.studentuser.find? (fun u => u.doc.email == payload.email) with
    | none => .error ⟨401, "Invalid credentials"⟩
    | some user =>
      if verify_password H payload.password user.doc.password_hash then
        let token := token_urlsafe randBytes
        let expires_iso := isoformat (now + 7 * 86400)
        let session_doc : SessionDoc :=
          ⟨toString user.oid, token, ua, ip, expires_iso, nowC, nowU⟩
        .ok (⟨true, token, expires_iso, user.doc.name⟩,
          some ⟨s.studentuser, s.session ++ [session_doc]⟩)
      else .error ⟨401, "Invalid credentials"⟩

/-! ### Claims about the auth endpoints -/

/-- C2 counterexample: with the store handle absent, `register` does NOT
surface an error; it returns the success result with `ok = true` and
`user_id = "None"` (the string form of Python `None`). -/
theorem register_db_none_succeeds :
    register Hc [1] 0 0 0 none ⟨str "Ann", str "a@x.com", str "pw1"⟩ =
      .ok (⟨true, "None"⟩, none) := rfl

/-- C2 amended: when the store handle is absent, `login` does fail loudly
with 401 "Invalid credentials", but `register` does not fail: it returns a
success result with `user_id = "None"` and persists nothing. -/
theorem db_none_behavior (H : Str → Str) (saltBytes randBytes : List Nat)
    (isoformat : Nat → String) (now nowC nowU now1 now2 : Nat)
    (ua ip : Option Str) (newId : Nat)
    (pl : LoginPayload) (pr : RegisterPayload) :
    login H randBytes isoformat now nowC nowU ua ip none pl =
      .error ⟨401, "Invalid credentials"⟩ ∧
    register H saltBytes now1 now2 newId none pr =
      .ok (⟨true, "None"⟩, none) :=
  ⟨rfl, rfl⟩

/-- C3: the login error for a nonexistent email and the login error for an
existing user whose password does not verify are identical: both are status
401 with detail "Invalid credentials". -/
theorem login_errors_indistinguishable (H : Str → Str) (randBytes : List Nat)
    (isoformat : Nat → String) (now nowC nowU : Nat) (ua ip : Option Str)
    (db : Option DBState) (payload : LoginPayload) :
    (findUser db payload.email = none →
      login H randBytes isoformat now nowC nowU ua ip db payload =
        .error ⟨401, "Invalid credentials"⟩) ∧
    (∀ user, findUser db payload.email = some user →
      verify_password H payload.password user.doc.password_hash = false →
      login H randBytes isoformat now nowC nowU ua ip db payload =
        .error ⟨401, "Invalid credentials"⟩) := by
  constructor
  · intro hnone
    cases db with
    | none => rfl
    | some s =>
      have hn2 : List.find? (fun u => u.doc.email == payload.email) s.studentuser
          = none := hnone
      simp only [login, hn2]
  · intro user hsome hverify
    cases db with
    | none => cases hsome
    | some s =>
      have hs2 : List.find? (fun u => u.doc.email == payload.email) s.studentuser
          = some user := hsome
      simp only [login, hs2, hverify]
      simp

/-- Stored user for concrete witnesses: Ann with the hash of "pw1". -/
def userAnn : StoredUser :=
  ⟨5, ⟨str "Ann", str "a@x.com", hash_password Hc [7, 200] (str "pw1"),
    none, none, none, 0, 0⟩⟩

/-- Concrete store holding only Ann. -/
def dbAnn : DBState := ⟨[userAnn], []⟩

/-- Witness for `login_errors_indistinguishable`: a wrong email and a wrong
password produce the same concrete error against the concrete store. -/
theorem login_errors_indistinguishable_witness :
    login Hc [] (fun _ => "") 0 0 0 none none (some dbAnn)
        ⟨str "b@x.com", str "pw1"⟩ = .error ⟨401, "Invalid credentials"⟩ ∧
    login Hc [] (fun _ => "") 0 0 0 none none (some dbAnn)
        ⟨str "a@x.com", str "wrong"⟩ = .error ⟨401, "Invalid credentials"⟩ :=
  ⟨(login_errors_indistinguishable Hc [] (fun _ => "") 0 0 0 none none
      (some dbAnn) ⟨str "b@x.com", str "pw1"⟩).1 (by decide),
   (login_errors_indistinguishable Hc [] (fun _ => "") 0 0 0 none none
      (some dbAnn) ⟨str "a@x.com", str "wrong"⟩).2 userAnn (by decide) (by decide)⟩

/-- C4: with the store present, `register` raises 400 "Email already
registered" exactly when some stored user has the requested email; otherwise
it appends the new user document (optional fields null, the two current
timestamps) and returns ok with the string of the generated id. -/
theorem register_spec (H : Str → Str) (saltBytes : List Nat)
    (now1 now2 newId : Nat) (s : DBState) (payload : RegisterPayload) :
    ((∃ u ∈ s.studentuser, u.doc.email = payload.email) →
      register H saltBytes now1 now2 newId (some s) payload =
        .error ⟨400, "Email already registered"⟩) ∧
    ((∀ u ∈ s.studentuser, u.doc.email ≠ payload.email) →
      register H saltBytes now1 now2 newId (some s) payload =
        .ok (⟨true, toString newId⟩,
          some ⟨s.studentuser ++
            [⟨newId, ⟨payload.name, payload.email,
              hash_password H saltBytes payload.password,
              none, none, none, now1, now2⟩⟩], s.session⟩)) := by
  constructor
  · rintro ⟨u, hu, he⟩
    have hf : (s.studentuser.find? (fun v => v.doc.email == payload.email)).isSome := by
      rw [List.find?_isSome]
      exact ⟨u, hu, by simp [he]⟩
    cases hsome : s.studentuser.find? (fun v => v.doc.email == payload.email) with
    | none =>
      rw [hsome] at hf
      cases hf
    | some w =>
      simp only [register, findUser, hsome]
  · intro hno
    have hf : s.studentuser.find? (fun v => v.doc.email == payload.email) = none := by
      rw [List.find?_eq_none]
      intro u hu
      simp only [beq_iff_eq]
      exact hno u hu
    simp only [register, findUser, hf]

/-- Witness for `register_spec`: against the concrete store, registering
the existing email yields the 400 error and registering a fresh email yields
success with the inserted document. -/
theorem register_spec_witness :
    register Hc [7, 200] 11 12 9 (some dbAnn)
        ⟨str "Bob", str "a@x.com", str "pw2"⟩ =
      .error ⟨400, "Email already registered"⟩ ∧
    register Hc [7, 200] 11 12 9 (some dbAnn)
        ⟨str "Bob", str "b@x.com", str "pw2"⟩ =
      .ok (⟨true, toString 9⟩,
        some ⟨dbAnn.studentuser ++ [⟨9, ⟨str "Bob", str "b@x.com",
          hash_password Hc [7, 200] (str "pw2"), none, none, none, 11, 12⟩⟩],
          dbAnn.session⟩) :=
  ⟨(register_spec Hc [7, 200] 11 12 9 dbAnn
      ⟨str "Bob", str "a@x.com", str "pw2"⟩).1 ⟨userAnn, by decide, by decide⟩,
   (register_spec Hc [7, 200] 11 12 9 dbAnn
      ⟨str "Bob", str "b@x.com", str "pw2"⟩).2 (by decide)⟩

/-- C7: on a successful login the response carries the URL-safe token built
from the 32 drawn random bytes (43 characters, all over the URL-safe
alphabet), the ISO rendering of now plus exactly 7 days, and the stored
user name; the created session document records user agent and client ip. -/
theorem login_success_shape (H : Str → Str) (randBytes : List Nat)
    (isoformat : Nat → String) (now nowC nowU : Nat) (ua ip : Option Str)
    (s : DBState) (payload : LoginPayload) (user : StoredUser)
    (hfind : s.studentuser.find? (fun u => u.doc.email == payload.email) = some user)
    (hverify : verify_password H payload.password user.doc.password_hash = true)
    (hlen : randBytes.length = 32) (hbytes : ∀ b ∈ randBytes, b < 256) :
    login H randBytes isoformat now nowC nowU ua ip (some s) payload =
      .ok (⟨true, token_urlsafe randBytes, isoformat (now + 7 * 86400),
          user.doc.name⟩,
        some ⟨s.studentuser,
          s.session ++ [⟨toString user.oid, token_urlsafe randBytes, ua, ip,
            isoformat (now + 7 * 86400), nowC, nowU⟩]⟩) ∧
    (token_urlsafe randBytes).length = 43 ∧
    (∀ c ∈ token_urlsafe randBytes, c ∈ b64urlAlphabet) := by
  refine ⟨?_, ?_, ?_⟩
  · simp only [login, hfind, hverify]
    simp
  · unfold token_urlsafe
    rw [base64urlNoPad_length, hlen]
  · exact base64urlNoPad_mem randBytes hbytes

/-- Thirty-two fixed bytes standing for the drawn randomness in witnesses. -/
def bytes32 : List Nat := List.replicate 32 7

/-- Witness for `login_success_shape` against the concrete store. -/
theorem login_success_shape_witness :
    login Hc bytes32 (fun n => toString n) 100 101 102 none none (some dbAnn)
        ⟨str "a@x.com", str "pw1"⟩ =
      .ok (⟨true, token_urlsafe bytes32, toString (100 + 7 * 86400), str "Ann"⟩,
        some ⟨dbAnn.studentuser,
          [⟨toString 5, token_urlsafe bytes32, none, none,
            toString (100 + 7 * 86400), 101, 102⟩]⟩) ∧
    (token_urlsafe bytes32).length = 43 :=
  have h := login_success_shape Hc bytes32 (fun n => toString n) 100 101 102
    none none dbAnn ⟨str "a@x.com", str "pw1"⟩ userAnn (by decide) (by decide)
    (by decide) (by decide)
  ⟨h.1, h.2.1⟩

/-! ## Generic documents and the blog endpoints (`main.py` 147-160) -/

/-- A value stored in a document field, covering the field types the
modelled collections hold: null, strings, lists of strings, booleans and
store-generated ObjectIds. -/
inductive Value where
  | vNull
  | vStr (s : Str)
  | vStrList (xs : List Str)
  | vBool (b : Bool)
  | vId (oid : Nat)
  deriving DecidableEq

/-- A Python dict document: association list of field name and value.
Python dicts hold at most one binding per key; where a claim needs that
invariant it appears as a `Nodup` hypothesis on the keys. -/
abbrev Doc := List (String × Value)

/-- Python repr of a string, as it appears inside `str()` of a list
(escaping of quotes inside the string is not modelled; no modelled code
path renders a list). -/
def pyReprStr (s : Str) : Str := '\x27' :: s ++ ['\x27']

/-- Python `str()` of a stored value, as applied to the popped `_id`. -/
def pyStr : Value → Str
  | .vNull => str "None"
  | .vStr s => s
  | .vStrList xs => '[' :: List.intercalate (str ", ") (xs.map pyReprStr) ++ [']']
  | .vBool b => if b then str "True" else str "False"
  | .vId oid => str (toString oid)

/-- Python `d.get(k)` / `d[k]`: value of the first binding of `k`. -/
def dictGet (k : String) : Doc → Option Value
  | [] => none
  | (k2, v) :: rest => if k2 = k then some v else dictGet k rest

/-- Removal part of Python `d.pop(k, default)`: drop the binding of `k`. -/
def dictRemove (k : String) : Doc → Doc
  | [] => []
  | (k2, v) :: rest => if k2 = k then rest else (k2, v) :: dictRemove k rest

/-- Python assignment `d[k] = v`: overwrite the existing binding in place,
or append a new binding at the end. -/
def dictSet (k : String) (v : Value) : Doc → Doc
  | [] => [(k, v)]
  | (k2, v2) :: rest =>
    if k2 = k then (k, v) :: rest else (k2, v2) :: dictSet k v rest

/-- Model of the sanitize statement (`main.py` 152):
`p["id"] = str(p.pop("_id", ""))`. -/
def sanitizePost (p : Doc) : Doc :=
  let popped := (dictGet "_id" p).getD (.vStr [])
  dictSet "id" (.vStr (pyStr popped)) (dictRemove "_id" p)

/-- Modelled from the spec: `database.py` is not among the sources; section
4.2 specifies `fetchMany(collectionName, filter, limit)` as returning up to
`limit` documents matching the filter, in stable insertion order. -/
def get_documents (collection : List Doc) (filt : Doc → Bool) (limit : Nat) :
    List Doc :=
  (collection.filter filt).take limit

/-- Modelled from the spec: `database.py` is not among the sources; section
4.2 specifies `insert(collectionName, document)` as appending the document
to the named collection and returning a generated identifier as a string. -/
def create_document (collection : List Doc) (doc : Doc) (newId : Nat) :
    String × List Doc :=
  (toString newId, collection ++ [doc])

/-- Response body of `GET /api/blog`. -/
structure ListBlogResponse where
  ok : Bool
  items : List Doc
  deriving DecidableEq

/-- Declared default of the `limit` query parameter of `list_blog`. -/
def defaultLimit : Nat := 10

/-- Model of `list_blog` (`main.py` 147-153): fetch up to `limit` blogpost
documents with the empty filter and sanitize `_id` on each. -/
def list_blog (blogposts : List Doc) (limit : Nat) : ListBlogResponse :=
  let posts := get_documents blogposts (fun _ => true) limit
  ⟨true, posts.map sanitizePost⟩

/-- `list_blog` with the `limit` query parameter omitted: FastAPI applies
the declared default. -/
def list_blog_default (blogposts : List Doc) : ListBlogResponse :=
  list_blog blogposts defaultLimit

/-- Request body of `POST /api/blog` (`BlogCreatePayload`). -/
structure BlogCreatePayload where
  title : Str
  slug : Str
  excerpt : Option Str
  content : Str
  author : Str
  tags : List Str
  cover_url : Option Str
  deriving DecidableEq

/-- An optional string field as a stored value: Python `None` or the string. -/
def optVal : Option Str → Value
  | none => .vNull
  | some s => .vStr s

/-- Model of `payload.model_dump()` for `BlogCreatePayload`: the dict of
exactly the declared fields, in declaration order. -/
def model_dump (p : BlogCreatePayload) : Doc :=
  [("title", .vStr p.title), ("slug", .vStr p.slug),
   ("excerpt", optVal p.excerpt), ("content", .vStr p.content),
   ("author", .vStr p.author), ("tags", .vStrList p.tags),
   ("cover_url", optVal p.cover_url)]

/-- Response body of `POST /api/blog`. -/
structure CreateBlogResponse where
  ok : Bool
  id : String
  deriving DecidableEq

/-- Model of `create_blog` (`main.py` 156-160): dump the payload and hand
the document to the store adapter. -/
def create_blog (blogposts : List Doc) (newId : Nat)
    (payload : BlogCreatePayload) : CreateBlogResponse × List Doc :=
  let doc := model_dump payload
  let r := create_document blogposts doc newId
  (⟨true, r.1⟩, r.2)

/-! ### Dictionary lemmas -/

theorem dictGet_eq_none (k : String) (p : Doc) (h : k ∉ p.map Prod.fst) :
    dictGet k p = none := by
  induction p with
  | nil => rfl
  | cons kv rest ih =>
    obtain ⟨k2, v⟩ := kv
    simp only [List.map_cons, List.mem_cons, not_or] at h
    have hne : ¬ k2 = k := fun he => h.1 he.symm
    show (if k2 = k then some v else dictGet k rest) = none
    rw [if_neg hne, ih h.2]

theorem dictGet_dictRemove_self (k : String) (p : Doc)
    (h : (p.map Prod.fst).Nodup) : dictGet k (dictRemove k p) = none := by
  induction p with
  | nil => rfl
  | cons kv rest ih =>
    obtain ⟨k2, v⟩ := kv
    simp only [List.map_cons, List.nodup_cons] at h
    show dictGet k (if k2 = k then rest else (k2, v) :: dictRemove k rest) = none
    by_cases h2 : k2 = k
    · rw [if_pos h2]
      exact h2 ▸ dictGet_eq_none k2 rest h.1
    · rw [if_neg h2]
      show (if k2 = k then some v else dictGet k (dictRemove k rest)) = none
      rw [if_neg h2, ih h.2]

theorem dictGet_dictRemove_ne (r k : String) (p : Doc) (h : ¬ k = r) :
    dictGet k (dictRemove r p) = dictGet k p := by
  induction p with
  | nil => rfl
  | cons kv rest ih =>
    obtain ⟨k2, v⟩ := kv
    show dictGet k (if k2 = r then rest else (k2, v) :: dictRemove r rest)
      = if k2 = k then some v else dictGet k rest
    by_cases h2 : k2 = r
    · rw [if_pos h2, if_neg (fun he : k2 = k => h (he ▸ h2))]
    · rw [if_neg h2]
      show (if k2 = k then some v else dictGet k (dictRemove r rest))
        = if k2 = k then some v else dictGet k rest
      rw [ih]

theorem dictGet_dictSet_self (k : String) (v : Value) (p : Doc) :
    dictGet k (dictSet k v p) = some v := by
  induction p with
  | nil =>
    show (if k = k then some v else dictGet k []) = some v
    rw [if_pos rfl]
  | cons kv rest ih =>
    obtain ⟨k2, v2⟩ := kv
    show dictGet k (if k2 = k then (k, v) :: rest else (k2, v2) :: dictSet k v rest)
      = some v
    by_cases h2 : k2 = k
    · rw [if_pos h2]
      show (if k = k then some v else dictGet k rest) = some v
      rw [if_pos rfl]
    · rw [if_neg h2]
      show (if k2 = k then some v2 else dictGet k (dictSet k v rest)) = some v
      rw [if_neg h2, ih]

theorem dictGet_dictSet_ne (k2 k : String) (v : Value) (p : Doc)
    (h : ¬ k = k2) : dictGet k (dictSet k2 v p) = dictGet k p := by
  have hne : ¬ k2 = k := fun he => h he.symm
  induction p with
  | nil =>
    show (if k2 = k then some v else dictGet k []) = dictGet k []
    rw [if_neg hne]
  | cons kv rest ih =>
    obtain ⟨kk, vv⟩ := kv
    show dictGet k (if kk = k2 then (k2, v) :: rest else (kk, vv) :: dictSet k2 v rest)
      = if kk = k then some vv else dictGet k rest
    by_cases h2 : kk = k2
    · rw [if_pos h2]
      show (if k2 = k then some v else dictGet k rest)
        = if kk = k then some vv else dictGet k rest
      rw [if_neg hne, if_neg (fun he : kk = k => hne (h2 ▸ he))]
    · rw [if_neg h2]
      show (if kk = k then some vv else dictGet k (dictSet k2 v rest))
        = if kk = k then some vv else dictGet k rest
      rw [ih]

/-! ### Claims about the blog endpoints -/

/-- C8: the list response never holds more than `limit` items, the omitted
limit defaults to 10, and on every returned item the internal `_id` binding
is gone and a string field `id` is present (keys unique, the Python dict
invariant). -/
theorem list_blog_spec (blogposts : List Doc) (limit : Nat)
    (hkeys : ∀ p ∈ blogposts, (p.map Prod.fst).Nodup) :
    (list_blog blogposts limit).items.length ≤ limit ∧
    list_blog_default blogposts = list_blog blogposts 10 ∧
    (∀ q ∈ (list_blog blogposts limit).items,
      dictGet "_id" q = none ∧ ∃ s, dictGet "id" q = some (.vStr s)) := by
  refine ⟨?_, rfl, ?_⟩
  · show ((get_documents blogposts (fun _ => true) limit).map sanitizePost).length
      ≤ limit
    rw [List.length_map]
    exact List.length_take_le limit _
  · intro q hq
    rw [show (list_blog blogposts limit).items
      = (get_documents blogposts (fun _ => true) limit).map sanitizePost from rfl,
      List.mem_map] at hq
    rcases hq with ⟨p, hp, rfl⟩
    have hpm : p ∈ blogposts :=
      List.mem_of_mem_filter (List.take_subset _ _ hp)
    have hnd := hkeys p hpm
    constructor
    · simp only [sanitizePost]
      rw [dictGet_dictSet_ne "id" "_id" _ _ (by decide),
        dictGet_dictRemove_self "_id" p hnd]
    · refine ⟨pyStr ((dictGet "_id" p).getD (.vStr [])), ?_⟩
      simp only [sanitizePost]
      rw [dictGet_dictSet_self]

/-- Concrete blogpost document for witnesses. -/
def blogDocA : Doc := [("_id", .vId 3), ("title", .vStr (str "t1"))]

/-- Witness for `list_blog_spec` on a concrete one-document store. -/
theorem list_blog_spec_witness :
    (list_blog [blogDocA] 10).items.length ≤ 10 ∧
    dictGet "_id" (sanitizePost blogDocA) = none ∧
    list_blog_default [blogDocA] = list_blog [blogDocA] 10 :=
  have h := list_blog_spec [blogDocA] 10 (by decide)
  ⟨h.1, (h.2.2 (sanitizePost blogDocA) (by decide)).1, h.2.1⟩

/-- C9: the document `create_blog` hands to the store is exactly the model
dump of the payload: its keys are precisely the seven payload fields, it
carries no `published` key (that is left to the schema default), and it is
what gets appended to the collection. -/
theorem create_blog_doc_fields (blogposts : List Doc) (newId : Nat)
    (payload : BlogCreatePayload) :
    (create_blog blogposts newId payload).2 = blogposts ++ [model_dump payload] ∧
    (model_dump payload).map Prod.fst =
      ["title", "slug", "excerpt", "content", "author", "tags", "cover_url"] ∧
    dictGet "published" (model_dump payload) = none :=
  ⟨rfl, rfl, rfl⟩

/-- C10 counterexample document: a fetched document that already carries an
`id` field of its own next to its `_id`. -/
def clashDoc : Doc :=
  [("_id", .vId 7), ("title", .vStr (str "t")), ("id", .vStr (str "old"))]

/-- C10 counterexample: the claim promises every field other than `_id` is
preserved, but on a fetched document that already has an `id` field the
sanitizer overwrites it, so the returned item differs from the document on
the field `id`. -/
theorem list_blog_clobbers_id :
    (list_blog [clashDoc] 10).items = [sanitizePost clashDoc] ∧
    dictGet "id" clashDoc = some (.vStr (str "old")) ∧
    dictGet "id" (sanitizePost clashDoc) = some (.vStr (str "7")) := by
  refine ⟨rfl, rfl, ?_⟩
  decide

/-- C10 amended: sanitizing preserves every field other than `_id` and `id`
(first-binding lookup), and sets `id` to the string form of the popped
`_id`, the empty string when the document has none. -/
theorem sanitize_frame (p : Doc) (k : String) (h1 : ¬ k = "_id")
    (h2 : ¬ k = "id") :
    dictGet k (sanitizePost p) = dictGet k p ∧
    dictGet "id" (sanitizePost p) =
      some (.vStr (pyStr ((dictGet "_id" p).getD (.vStr [])))) := by
  constructor
  · simp only [sanitizePost]
    rw [dictGet_dictSet_ne "id" k _ _ h2, dictGet_dictRemove_ne "_id" k p h1]
  · simp only [sanitizePost]
    rw [dictGet_dictSet_self]

/-- Witness for `sanitize_frame` on the concrete clashing document. -/
theorem sanitize_frame_witness :
    dictGet "title" (sanitizePost clashDoc) = dictGet "title" clashDoc ∧
    dictGet "id" (sanitizePost clashDoc) =
      some (.vStr (pyStr ((dictGet "_id" clashDoc).getD (.vStr [])))) :=
  sanitize_frame clashDoc "title" (by decide) (by decide)

end StudyTracker
